import Mathlib

/-!
# Cluster-based disjunct expansion (link-grammar)

A shallow embedding of

* `link-grammar/corpus/cluster.c`  (`lg_cluster_new`, `make_exp`,
  `lg_cluster_get_disjuncts`),
* `link-grammar/expand.c`          (`build_expansion_disjuncts`,
  `lg_expand_disjunct_list`),
* `link-grammar/dict-common/dict-impl.c` (`linkgrammar_get_dict_version`),

together with the small part of the sqlite3 statement API these functions
drive.  C strings are lists of `char`s, linked lists are Lean lists, a
pointer that may be `NULL` is an `Option`, and mutable objects are passed
explicitly from state to state.  The `cost` column is a C `double` that the
code only forwards and never computes with, so the embedding is parametric
in its type `κ`.  A call that does not return because the process dies (a
`NULL` statement handed to `sqlite3_clear_bindings`) is recorded as such:
the lookup carries an `Outcome`, the expansion pass returns an `Option`.
-/

namespace LinkGrammar

/-- A NUL-terminated C string: the `char`s before the terminator. -/
abbrev CString := List Char

/-! ## The sqlite3 statement interface used by `cluster.c` -/

def SQLITE_OK : Int := 0
def SQLITE_CANTOPEN : Int := 14
def SQLITE_MISUSE : Int := 21
def SQLITE_ROW : Int := 100
def SQLITE_DONE : Int := 101

/-- One row of `ClusterMembers(inflected_word TEXT, cluster_name TEXT)`. -/
structure MemberRow where
  inflected_word : CString
  cluster_name : CString
deriving DecidableEq, Repr

/-- One row of `ClusterDisjuncts(cluster_name TEXT, disjunct TEXT, cost REAL)`. -/
structure DisjunctRow (κ : Type) where
  cluster_name : CString
  disjunct : CString
  cost : κ
deriving DecidableEq, Repr

/-- The content of the database file.  Each table is the list of its rows in
scan order (the order in which a `SELECT` without `ORDER BY` walks them); a
table that the file does not have is `none`, which makes the corresponding
`sqlite3_prepare_v2` fail. -/
structure Database (κ : Type) where
  ClusterMembers : Option (List MemberRow)
  ClusterDisjuncts : Option (List (DisjunctRow κ))
deriving DecidableEq, Repr

/-- Execution state of a prepared statement whose result rows have type `ρ`:
`ready` is the state after prepare or reset, `rows rest` means a row has been
delivered and `rest` are still to come, `done` means `SQLITE_DONE` was
returned. -/
inductive Cursor (ρ : Type) where
  | ready : Cursor ρ
  | rows (rest : List ρ) : Cursor ρ
  | done : Cursor ρ
deriving DecidableEq, Repr

/-- A prepared statement with one parameter (`?`): the value bound to it
(`none` is SQL NULL, the unbound state) and the cursor. -/
structure Stmt (ρ : Type) where
  binding : Option CString
  cursor : Cursor ρ
deriving DecidableEq, Repr

/-- Outcome of one `sqlite3_step`; a delivered row carries the column values
that `sqlite3_column_text` / `sqlite3_column_double` then read. -/
inductive Step (ρ : Type) where
  | row (r : ρ) : Step ρ
  | done : Step ρ
  | misuse : Step ρ
deriving DecidableEq, Repr

/-- The result code of a step. -/
def Step.rc {ρ : Type} : Step ρ → Int
  | .row _ => SQLITE_ROW
  | .done => SQLITE_DONE
  | .misuse => SQLITE_MISUSE

/-- The query `SELECT cluster_name FROM ClusterMembers WHERE inflected_word = ?;`.
The rows come in the scan order of the table; a NULL parameter equals
nothing. -/
def select_cluster_name {κ : Type} (db : Database κ) (param : Option CString) :
    List CString :=
  match db.ClusterMembers, param with
  | some rows, some w =>
    (rows.filter (fun r => decide (r.inflected_word = w))).map (fun r => r.cluster_name)
  | _, _ => []

/-- The query `SELECT disjunct, cost FROM ClusterDisjuncts WHERE cluster_name = ?;`,
rows in the scan order of the table. -/
def select_disjunct_cost {κ : Type} (db : Database κ) (param : Option CString) :
    List (CString × κ) :=
  match db.ClusterDisjuncts, param with
  | some rows, some c =>
    (rows.filter (fun r => decide (r.cluster_name = c))).map (fun r => (r.disjunct, r.cost))
  | _, _ => []

/-- The call of `sqlite3_prepare_v2` for the cluster-membership query: fails (leaving the
statement pointer `NULL`) when the table is missing. -/
def sqlite3_prepare_clu {κ : Type} (db : Database κ) : Option (Stmt CString) :=
  match db.ClusterMembers with
  | some _ => some { binding := none, cursor := .ready }
  | none => none

/-- The call of `sqlite3_prepare_v2` for the disjunct query. -/
def sqlite3_prepare_dj {κ : Type} (db : Database κ) : Option (Stmt (CString × κ)) :=
  match db.ClusterDisjuncts with
  | some _ => some { binding := none, cursor := .ready }
  | none => none

/-- The call `sqlite3_bind_text(stmt, 1, value, -1, SQLITE_STATIC)`.  A `NULL`
statement, or one that has been stepped and not reset, is rejected with
`SQLITE_MISUSE` and left as it is. -/
def sqlite3_bind_text {ρ : Type} (s : Option (Stmt ρ)) (value : Option CString) :
    Int × Option (Stmt ρ) :=
  match s with
  | none => (SQLITE_MISUSE, none)
  | some st =>
    match st.cursor with
    | .ready => (SQLITE_OK, some { st with binding := value })
    | _ => (SQLITE_MISUSE, some st)

/-- The call `sqlite3_step(stmt)`, where `run` is the compiled query (from the bound
parameter to the result rows).  Stepping a statement that has returned
`SQLITE_DONE` restarts it, as sqlite3 does since 3.6.23.1. -/
def sqlite3_step {ρ : Type} (run : Option CString → List ρ) (s : Option (Stmt ρ)) :
    Step ρ × Option (Stmt ρ) :=
  match s with
  | none => (.misuse, none)
  | some st =>
    match st.cursor with
    | .rows (r :: rest) => (.row r, some { st with cursor := .rows rest })
    | .rows [] => (.done, some { st with cursor := .done })
    | _ =>
      match run st.binding with
      | r :: rest => (.row r, some { st with cursor := .rows rest })
      | [] => (.done, some { st with cursor := .done })

/-- The call `sqlite3_reset(stmt)`: back to the ready state, bindings kept;
harmless on `NULL`. -/
def sqlite3_reset {ρ : Type} (s : Option (Stmt ρ)) : Option (Stmt ρ) :=
  s.map (fun st => { st with cursor := .ready })

/-- The call `sqlite3_clear_bindings(stmt)`: every parameter back to NULL.
Unlike bind, step and reset, the library does not check this argument: on a
`NULL` statement it dereferences the pointer and the process dies with a
segmentation fault.  The result `none` is that fault, `some st` is the
statement afterwards. -/
def sqlite3_clear_bindings {ρ : Type} (s : Option (Stmt ρ)) : Option (Stmt ρ) :=
  match s with
  | none => none
  | some st => some { st with binding := none }

/-! ## Data model of the parser structures the expansion touches -/

/-- Direction marker of a connector: `-` points left, `+` points right. -/
inductive Direction where
  | left : Direction
  | right : Direction
deriving DecidableEq, Repr

/-- Modelled from the spec: the type `Exp` is declared in a header that is
not among the sources.  Section 3 of the spec gives it as a tagged variant,
`Connector{name, direction, multi}`, `And{ordered children}`,
`Or{alternative children}`, each optionally annotated with a cost. -/
inductive Exp (κ : Type) where
  | connector (name : CString) (dir : Direction) (multi : Bool) (cost : Option κ) : Exp κ
  | and (children : List (Exp κ)) (cost : Option κ) : Exp κ
  | or (children : List (Exp κ)) (cost : Option κ) : Exp κ

/-- A connector as it appears in a disjunct: the direction is given by the
side of the disjunct it sits on. -/
structure Connector where
  name : CString
  multi : Bool
deriving DecidableEq, Repr

/-- Modelled from the spec: the type `Disjunct` is declared in a header that
is not among the sources.  Section 3 of the spec gives it as an ordered
left-connector sequence, an ordered right-connector sequence, an aggregate
cost and the source word. -/
structure Disjunct (κ : Type) where
  left : List Connector
  right : List Connector
  cost : κ
  string : CString
deriving DecidableEq, Repr

/-- An `X_node`: one candidate root expression of a word.  Only the field
`string` is read by the expansion; `next` is the list structure. -/
structure X_node where
  string : CString
deriving DecidableEq, Repr

/-- A word of the sentence: the list `x` of candidate root expressions and
the disjunct list `d`. -/
structure Word (κ : Type) where
  x : List X_node
  d : List (Disjunct κ)
deriving DecidableEq, Repr

/-- The sentence: `length` words in the array `word`. -/
structure Sentence (κ : Type) where
  length : Nat
  word : List (Word κ)
deriving DecidableEq, Repr

/-- Modelled from the spec: `catenate_disjuncts` is defined in
`disjunct-utils.c`, which is not among the sources.  The spec describes the
merge as a concatenation that neither reorders nor removes entries; the
first argument is followed by the second. -/
def catenate_disjuncts {κ : Type} (d1 d2 : List (Disjunct κ)) : List (Disjunct κ) :=
  d1 ++ d2

/-! ## `cluster.c` -/

/-- The `struct cluster_s`. -/
structure Cluster (κ : Type) where
  dbname : Option CString
  dbconn : Option (Database κ)
  clu_query : Option (Stmt CString)
  dj_query : Option (Stmt (CString × κ))
  rc : Int
deriving DecidableEq, Repr

/-- What `object_open(DBNAME, db_file_open, c)` finds: either no file that
`sqlite3_open_v2` can open (with the result code left in `c->rc`), or the
database at some path. -/
inductive Env (κ : Type) where
  | unavailable (rc : Int) : Env κ
  | available (dbname : CString) (db : Database κ) : Env κ

/-- The function `lg_cluster_new`.  When the database cannot be opened the
cluster is returned with no connection and no statement; otherwise both
queries are prepared, each left `NULL` if its preparation fails. -/
def lg_cluster_new {κ : Type} (env : Env κ) : Cluster κ :=
  match env with
  | .unavailable rc =>
    { dbname := none, dbconn := none, clu_query := none, dj_query := none, rc := rc }
  | .available dbname db =>
    { dbname := some dbname, dbconn := some db,
      clu_query := sqlite3_prepare_clu db,
      dj_query := sqlite3_prepare_dj db,
      rc := SQLITE_OK }

/-- The function `make_exp`: the body is disabled by `#if 0`, what is left is
`return NULL`. -/
def make_exp {κ : Type} (_djstr : CString) (_cost : κ) : Option (Exp κ) :=
  none

/-- One invocation of the expression builder: its two arguments and what it
returned. -/
structure Made (κ : Type) where
  djstr : CString
  cost : κ
  exp : Option (Exp κ)

/-- How a call ends: it returns to its caller, or the process dies with a
segmentation fault inside `sqlite3_clear_bindings`. -/
inductive Outcome where
  | returned : Outcome
  | segv : Outcome
deriving DecidableEq, Repr

/-- What a call of `lg_cluster_get_disjuncts` leaves behind: the list `djl`,
the cluster object, the local `cluname` (`none` on the `noclust` path), the
invocations of the expression builder in order, the last value of the local
`rc`, and how the call ended.  When the call ended in a fault the fields hold
the values at the moment of the fault. -/
structure Lookup (κ : Type) where
  djl : List (Disjunct κ)
  c : Cluster κ
  cluname : Option CString
  made : List (Made κ)
  rc : Int
  outcome : Outcome

/-- The compiled cluster-membership query of a cluster object. -/
def clu_run {κ : Type} (c : Cluster κ) : Option CString → List CString :=
  match c.dbconn with
  | some db => select_cluster_name db
  | none => fun _ => []

/-- The compiled disjunct query of a cluster object. -/
def dj_run {κ : Type} (c : Cluster κ) : Option CString → List (CString × κ) :=
  match c.dbconn with
  | some db => select_disjunct_cost db
  | none => fun _ => []

/-- Number of rows a statement can still deliver before it reports
something other than `SQLITE_ROW`. -/
def pending {ρ : Type} (run : Option CString → List ρ) (s : Option (Stmt ρ)) : Nat :=
  match s with
  | none => 0
  | some st =>
    match st.cursor with
    | .rows rest => rest.length
    | _ => (run st.binding).length

/-- The `while(1)` loop of `lg_cluster_get_disjuncts`, for the builder `mk`.
Each turn steps the disjunct query, leaves through `break` when the result
is not `SQLITE_ROW`, and otherwise reads the two columns and calls the
builder, whose result is dropped.  `fuel` bounds the number of turns; if it
runs out the loop is cut with `rc` still `SQLITE_ROW`. -/
def dj_loop {κ : Type} (mk : CString → κ → Option (Exp κ))
    (run : Option CString → List (CString × κ)) :
    Nat → Option (Stmt (CString × κ)) → List (Made κ) →
      Int × Option (Stmt (CString × κ)) × List (Made κ)
  | 0, s, made => (SQLITE_ROW, s, made)
  | fuel + 1, s, made =>
    match sqlite3_step run s with
    | (.row (djs, cost), s1) =>
      dj_loop mk run fuel s1 (made ++ [{ djstr := djs, cost := cost, exp := mk djs cost }])
    | (st, s1) => (st.rc, s1, made)

/-- The function `lg_cluster_get_disjuncts` with the expression builder as a
parameter.  `djl` is initialised to `NULL` and never assigned.  No statement
is tested for `NULL` before it is handed to sqlite3 (unlike in
`lg_cluster_delete`, which guards each handle), so a cluster object without
prepared statements ends the call in `sqlite3_clear_bindings`. -/
def lg_cluster_get_disjuncts_using {κ : Type} (mk : CString → κ → Option (Exp κ))
    (c : Cluster κ) (wrd : CString) : Lookup κ :=
  let djl : List (Disjunct κ) := []
  /- Look for a cluster containing this word -/
  let (_, clu1) := sqlite3_bind_text c.clu_query (some wrd)
  match sqlite3_step (clu_run c) clu1 with
  | (.row cluname, clu2) =>
    /- Get the cluster name, and look for the disjuncts -/
    let (_, dj1) := sqlite3_bind_text c.dj_query (some cluname)
    let (rc, dj2, made) := dj_loop mk (dj_run c) (pending (dj_run c) dj1 + 1) dj1 []
    let dj2r := sqlite3_reset dj2
    match sqlite3_clear_bindings dj2r with
    | none =>
      { djl := djl, c := { c with clu_query := clu2, dj_query := dj2r },
        cluname := some cluname, made := made, rc := rc, outcome := .segv }
    | some dj3 =>
      /- noclust: -/
      let clu2r := sqlite3_reset clu2
      match sqlite3_clear_bindings clu2r with
      | none =>
        { djl := djl, c := { c with clu_query := clu2r, dj_query := some dj3 },
          cluname := some cluname, made := made, rc := rc, outcome := .segv }
      | some clu3 =>
        { djl := djl, c := { c with clu_query := some clu3, dj_query := some dj3 },
          cluname := some cluname, made := made, rc := rc, outcome := .returned }
  | (st, clu2) =>
    /- goto noclust -/
    let clu2r := sqlite3_reset clu2
    match sqlite3_clear_bindings clu2r with
    | none =>
      { djl := djl, c := { c with clu_query := clu2r },
        cluname := none, made := [], rc := st.rc, outcome := .segv }
    | some clu3 =>
      { djl := djl, c := { c with clu_query := some clu3 },
        cluname := none, made := [], rc := st.rc, outcome := .returned }

/-- The function `lg_cluster_get_disjuncts`. -/
def lg_cluster_get_disjuncts {κ : Type} (c : Cluster κ) (wrd : CString) : Lookup κ :=
  lg_cluster_get_disjuncts_using make_exp c wrd

/-! ## `expand.c` -/

/-- The function `build_expansion_disjuncts`: the lookup for the string of
one candidate root expression.  The result is `none` when the lookup does
not return. -/
def build_expansion_disjuncts {κ : Type} (clu : Cluster κ) (x : X_node) :
    Option (List (Disjunct κ) × Cluster κ) :=
  let r := lg_cluster_get_disjuncts clu x.string
  match r.outcome with
  | .returned => some (r.djl, r.c)
  | .segv => none

/-- The inner loop of `lg_expand_disjunct_list` over the `X_node` list of one
word: `d = catenate_disjuncts(dx, d)` for each node. -/
def expand_x_loop {κ : Type} (clu : Cluster κ) :
    List X_node → List (Disjunct κ) → Option (List (Disjunct κ) × Cluster κ)
  | [], d => some (d, clu)
  | x :: xs, d =>
    match build_expansion_disjuncts clu x with
    | none => none
    | some (dx, clu1) => expand_x_loop clu1 xs (catenate_disjuncts dx d)

/-- The outer loop `for (w = 0; w < sent->length; w++)`, with `n` turns still
to go from index `w`.  An index outside the word array is skipped. -/
def expand_w_loop {κ : Type} :
    Nat → Nat → Cluster κ → Sentence κ → Option (Sentence κ × Cluster κ)
  | 0, _, clu, sent => some (sent, clu)
  | n + 1, w, clu, sent =>
    match sent.word[w]? with
    | some wd =>
      match expand_x_loop clu wd.x wd.d with
      | none => none
      | some (d, clu1) =>
        expand_w_loop n (w + 1) clu1
          { sent with word := sent.word.set w { wd with d := d } }
    | none => expand_w_loop n (w + 1) clu sent

/-- The function `lg_expand_disjunct_list`: a cluster object is created from
what the environment offers, every word is visited, and the cluster object
is released (`lg_cluster_delete`) before returning.  The result is the
sentence afterwards, or `none` when the process dies before the pass
returns. -/
def lg_expand_disjunct_list {κ : Type} (env : Env κ) (sent : Sentence κ) :
    Option (Sentence κ) :=
  let clu := lg_cluster_new env
  (expand_w_loop sent.length 0 clu sent).map (fun r => r.1)

/-! ## `dict-impl.c`: the dictionary version -/

/-- A `Dict_node`: the word and its expression. -/
structure Dict_node (κ : Type) where
  string : CString
  exp : Exp κ

/-- The fields of the dictionary that `linkgrammar_get_dict_version` uses:
the cached `version` (`NULL` until computed), the string set that owns the
returned strings, and the `lookup_list` method of the dictionary. -/
structure Dictionary (κ : Type) where
  version : Option CString
  string_set : List CString
  lookup_list : CString → List (Dict_node κ)

/-- The union member `u.string` of an expression: the connector string.
It is only meaningful for a connector expression. -/
def Exp.u_string {κ : Type} : Exp κ → Option CString
  | .connector name _ _ _ => some name
  | _ => none

/-- Modelled from the spec: `string_set_add` is defined in `string-set.c`,
which is not among the sources; the spec counts it as bookkeeping.  It
returns the set's own copy of the string, adding one if there is none. -/
def string_set_add (s : CString) (set : List CString) : CString × List CString :=
  (s, if s ∈ set then set else set ++ [s])

/-- The call `strchr(s + i, c)` as an index into `s`: the first position at or after
`i` that holds `c`, `none` for `NULL`. -/
def strchr : CString → Nat → Char → Option Nat
  | [], _, _ => none
  | x :: xs, 0, c => if x = c then some 0 else (strchr xs 0 c).map (fun k => k + 1)
  | _ :: xs, i + 1, c => (strchr xs i c).map (fun k => k + 1)

/-- The loop `while (p) { *p = '.'; p = strchr(p+1, 'v'); }` on the buffer
`ver`, with `fuel` bounding the number of turns. -/
def version_loop : Nat → CString → Option Nat → CString
  | 0, ver, _ => ver
  | _ + 1, ver, none => ver
  | fuel + 1, ver, some p =>
    let ver1 := ver.set p '.'
    version_loop fuel ver1 (strchr ver1 (p + 1) 'v')

/-- The function `linkgrammar_get_dict_version`: the returned string and the
dictionary afterwards.  The result is `none` where the C code has no defined
behaviour: the entry's expression is not a connector, or its string is empty
so that `&e->u.string[1]` lies past the terminator. -/
def linkgrammar_get_dict_version {κ : Type} (dict : Dictionary κ) :
    Option (CString × Dictionary κ) :=
  match dict.version with
  | some v => some (v, dict)
  | none =>
    match dict.lookup_list "<dictionary-version-number>".toList with
    | [] => some ("[unknown]".toList, dict)
    | dn :: _ =>
      match dn.exp.u_string with
      | some (_ :: tail) =>
        let ver := tail
        let p := strchr ver 0 'v'
        let ver1 := version_loop (ver.length + 1) ver p
        let (v, set1) := string_set_add ver1 dict.string_set
        some (v, { dict with version := some v, string_set := set1 })
      | _ => none

/-! ## The decoder the spec asks for -/

/-- Lexical tokens of the disjunct-string notation. -/
inductive Token where
  | lparen : Token
  | rparen : Token
  | amp : Token
  | or : Token
  | text (w : CString) : Token
deriving DecidableEq, Repr

/-- Close the word read so far (kept reversed) and put its token in front of
the reversed token list. -/
def flush_word (cur : List Char) (acc : List Token) : List Token :=
  if cur = [] then acc
  else if cur.reverse = "or".toList then Token.or :: acc
  else Token.text cur.reverse :: acc

/-- Split a disjunct string into tokens: blanks separate, parentheses and
`&` stand alone. -/
def tokenize_aux : List Char → List Char → List Token → List Token
  | [], cur, acc => (flush_word cur acc).reverse
  | ch :: rest, cur, acc =>
    if ch = ' ' then tokenize_aux rest [] (flush_word cur acc)
    else if ch = '(' then tokenize_aux rest [] (Token.lparen :: flush_word cur acc)
    else if ch = ')' then tokenize_aux rest [] (Token.rparen :: flush_word cur acc)
    else if ch = '&' then tokenize_aux rest [] (Token.amp :: flush_word cur acc)
    else tokenize_aux rest (ch :: cur) acc

/-- Modelled from the spec: section 4.2, a connector token is a name followed
by a direction marker (`+` right, `-` left), with the multiplicity marker
`@` of the dictionary notation in front.  An empty token, an empty name or
an unknown marker is a decode error. -/
def decode_connector {κ : Type} (w : CString) : Option (Exp κ) :=
  let multi := decide (w.head? = some '@')
  let body := if multi then w.drop 1 else w
  match body.reverse with
  | [] => none
  | m :: name_rev =>
    if name_rev = [] then none
    else if name_rev.any (fun ch => decide (ch = '+' ∨ ch = '-' ∨ ch = '@')) then none
    else if m = '+' then some (.connector name_rev.reverse .right multi none)
    else if m = '-' then some (.connector name_rev.reverse .left multi none)
    else none

mutual
/-- An operand: a connector token or a parenthesised expression. -/
def parse_operand {κ : Type} : Nat → List Token → Option (Exp κ × List Token)
  | 0, _ => none
  | _ + 1, Token.text w :: rest => (decode_connector w).map (fun e => (e, rest))
  | fuel + 1, Token.lparen :: rest =>
    match parse_expr fuel rest with
    | some (e, Token.rparen :: rest1) => some (e, rest1)
    | _ => none
  | _ + 1, _ => none
/-- The operands that follow, each introduced by the operator `op`. -/
def parse_chain {κ : Type} :
    Nat → Token → List (Exp κ) → List Token → Option (List (Exp κ) × List Token)
  | 0, _, _, _ => none
  | _ + 1, _, acc, [] => some (acc, [])
  | fuel + 1, op, acc, t :: rest =>
    if t = op then
      match parse_operand fuel rest with
      | some (e, rest1) => parse_chain fuel op (acc ++ [e]) rest1
      | none => none
    else some (acc, t :: rest)
/-- An expression: one operand, or operands joined by `&` (ordered AND), or
operands joined by `or` (alternation). -/
def parse_expr {κ : Type} : Nat → List Token → Option (Exp κ × List Token)
  | 0, _ => none
  | fuel + 1, toks =>
    match parse_operand fuel toks with
    | none => none
    | some (e, Token.amp :: rest) =>
      (parse_chain fuel Token.amp [e] (Token.amp :: rest)).map
        (fun r => (Exp.and r.1 none, r.2))
    | some (e, Token.or :: rest) =>
      (parse_chain fuel Token.or [e] (Token.or :: rest)).map
        (fun r => (Exp.or r.1 none, r.2))
    | some (e, rest) => some (e, rest)
end

/-- Modelled from the spec: the `decode` of section 4.2, which the source
does not implement (`make_exp` is a placeholder).  Connector tokens combine
through `&` and `or`, with parentheses for grouping; what does not parse to
the end (unbalanced parentheses, unknown marker, empty token) is a decode
error, `none`. -/
def decode {κ : Type} (djstr : CString) : Option (Exp κ) :=
  let toks := tokenize_aux djstr [] []
  match parse_expr (2 * toks.length + 2) toks with
  | some (e, []) => some e
  | _ => none

/-- A disjunct string is validly decodable when the spec's `decode` accepts
it. -/
def validly_decodable (djstr : CString) : Bool :=
  (decode djstr : Option (Exp Unit)).isSome

/-- The number `N` of validly decodable disjunct strings among the cluster
rows reached from the candidate strings of a word. -/
def valid_rows {κ : Type} (env : Env κ) (wd : Word κ) : Nat :=
  (wd.x.map (fun x =>
    ((lg_cluster_get_disjuncts (lg_cluster_new env) x.string).made.filter
      (fun m => validly_decodable m.djstr)).length)).sum

/-! ## Auxiliary notions used in the statements -/

/-- A statement is fresh when it is prepared, reset, and nothing is bound. -/
def stmt_fresh {ρ : Type} (s : Option (Stmt ρ)) : Prop :=
  s = some { binding := none, cursor := .ready }

/-- Both prepared queries of the cluster object are fresh. -/
def cluster_fresh {κ : Type} (c : Cluster κ) : Prop :=
  stmt_fresh c.clu_query ∧ stmt_fresh c.dj_query

/-- The record of one builder invocation on a row. -/
def made_of {κ : Type} (mk : CString → κ → Option (Exp κ)) (row : CString × κ) : Made κ :=
  { djstr := row.1, cost := row.2, exp := mk row.1 row.2 }

/-- What a lookup amounts to, in closed form, on a cluster object whose
statements are each absent or fresh. -/
def lookup_closed_form {κ : Type} (mk : CString → κ → Option (Exp κ))
    (c : Cluster κ) (wrd : CString) : Lookup κ :=
  match c.clu_query with
  | none =>
    { djl := [], c := c, cluname := none, made := [], rc := SQLITE_MISUSE,
      outcome := .segv }
  | some _ =>
    match clu_run c (some wrd) with
    | [] =>
      { djl := [], c := c, cluname := none, made := [], rc := SQLITE_DONE,
        outcome := .returned }
    | cl :: rest =>
      match c.dj_query with
      | none =>
        { djl := [],
          c := { c with clu_query := some { binding := some wrd, cursor := .rows rest } },
          cluname := some cl, made := [], rc := SQLITE_MISUSE, outcome := .segv }
      | some _ =>
        { djl := [], c := c, cluname := some cl,
          made := (dj_run c (some cl)).map (made_of mk), rc := SQLITE_DONE,
          outcome := .returned }

/-- The character-wise effect of the version loop: `v` becomes `.`. -/
def dot_for_v (ch : Char) : Char := if ch = 'v' then '.' else ch


/-- The state of the cluster object after looking up each of `ws` in turn,
`none` if one of the lookups does not return. -/
def after_lookups {κ : Type} (mk : CString → κ → Option (Exp κ)) (c : Cluster κ) :
    List CString → Option (Cluster κ)
  | [] => some c
  | w :: ws =>
    match (lg_cluster_get_disjuncts_using mk c w).outcome with
    | .returned => after_lookups mk (lg_cluster_get_disjuncts_using mk c w).c ws
    | .segv => none

/-- The (disjunct string, cost) rows a lookup visited, in the order of the
visits. -/
def visited {κ : Type} (r : Lookup κ) : List (CString × κ) :=
  r.made.map (fun m => (m.djstr, m.cost))

/-- The order the spec asks of the disjunct rows: ascending by cost, and
among equal costs lexicographic by disjunct string. -/
def visit_order {κ : Type} [LT κ] (a b : CString × κ) : Prop :=
  a.2 < b.2 ∨ (a.2 = b.2 ∧ a.1 ≤ b.1)

/-- The store of the end-to-end example: `ClusterMembers("run", "C1")`,
`ClusterDisjuncts("C1", "S+", 0.0)` and `("C1", "S+ & O-", 1.0)`. -/
def run_db : Database ℚ :=
  { ClusterMembers := some [⟨"run".toList, "C1".toList⟩],
    ClusterDisjuncts := some [⟨"C1".toList, "S+".toList, 0⟩,
                              ⟨"C1".toList, "S+ & O-".toList, 1⟩] }

def run_env : Env ℚ := .available "sql/clusters.db".toList run_db

/-- The word "run" with one candidate root expression and no disjunct. -/
def run_word : Word ℚ := { x := [⟨"run".toList⟩], d := [] }

def run_sentence : Sentence ℚ := { length := 1, word := [run_word] }

/-- A native disjunct: one right-pointing `S` connector at cost 0. -/
def native_disjunct : Disjunct ℚ :=
  { left := [], right := [⟨"S".toList, false⟩], cost := 0, string := "walk".toList }

/-- A word that is in no cluster of `run_db`, with one native disjunct. -/
def walk_word : Word ℚ := { x := [⟨"walk".toList⟩], d := [native_disjunct] }

def walk_sentence : Sentence ℚ := { length := 1, word := [walk_word] }

/-- The word "run" is a member of two clusters, `C2` stored before `C1`. -/
def two_cluster_db : Database ℚ :=
  { ClusterMembers := some [⟨"run".toList, "C2".toList⟩, ⟨"run".toList, "C1".toList⟩],
    ClusterDisjuncts := some [] }

/-- The same rows as `two_cluster_db`, stored in the other order. -/
def two_cluster_db_swapped : Database ℚ :=
  { ClusterMembers := some [⟨"run".toList, "C1".toList⟩, ⟨"run".toList, "C2".toList⟩],
    ClusterDisjuncts := some [] }

/-- The rows of `run_db`, the dearer disjunct stored first. -/
def unsorted_db : Database ℚ :=
  { ClusterMembers := some [⟨"run".toList, "C1".toList⟩],
    ClusterDisjuncts := some [⟨"C1".toList, "S+ & O-".toList, 1⟩,
                              ⟨"C1".toList, "S+".toList, 0⟩] }

/-- A database file that has the `ClusterMembers` table of `run_db` but no
`ClusterDisjuncts` table, so that the second prepare fails. -/
def half_db : Database ℚ :=
  { ClusterMembers := some [⟨"run".toList, "C1".toList⟩], ClusterDisjuncts := none }

/-- No database file is found: `sqlite3_open_v2` reports `SQLITE_CANTOPEN`. -/
def missing_env : Env ℚ := .unavailable SQLITE_CANTOPEN

/-- A dictionary without cached version whose `<dictionary-version-number>`
entry is the connector `V4v6v6+`. -/
def versioned_dict : Dictionary ℚ :=
  { version := none, string_set := [],
    lookup_list := fun w =>
      if w = "<dictionary-version-number>".toList then
        [{ string := w, exp := .connector "V4v6v6".toList .right false none }]
      else [] }


/-! ## Supporting lemmas -/

theorem lookup_djl {κ : Type} (mk : CString → κ → Option (Exp κ)) (c : Cluster κ)
    (wrd : CString) : (lg_cluster_get_disjuncts_using mk c wrd).djl = [] := by
  unfold lg_cluster_get_disjuncts_using
  simp only []
  repeat' split
  all_goals rfl

theorem set_same {α : Type} (l : List α) (w : Nat) (a : α) (h : l[w]? = some a) :
    l.set w a = l := by
  induction l generalizing w with
  | nil => rfl
  | cons b l ih =>
    cases w with
    | zero => simp at h; simp [h]
    | succ w => simp at h; simp [ih w h]

theorem dj_loop_rows {κ : Type} (mk : CString → κ → Option (Exp κ))
    (run : Option CString → List (CString × κ)) (b : Option CString)
    (rest : List (CString × κ)) :
    ∀ (fuel : Nat) (made : List (Made κ)), rest.length < fuel →
      dj_loop mk run fuel (some { binding := b, cursor := .rows rest }) made
        = (SQLITE_DONE, some { binding := b, cursor := .done },
            made ++ rest.map (made_of mk)) := by
  induction rest with
  | nil =>
    intro fuel made h
    cases fuel with
    | zero => simp at h
    | succ fuel => simp [dj_loop, sqlite3_step, Step.rc]
  | cons r rest ih =>
    intro fuel made h
    cases fuel with
    | zero => simp at h
    | succ fuel =>
      obtain ⟨djs, cost⟩ := r
      simp only [List.length_cons, Nat.add_lt_add_iff_right] at h
      simp only [dj_loop, sqlite3_step]
      rw [ih fuel _ h]
      simp [made_of]

theorem dj_loop_ready {κ : Type} (mk : CString → κ → Option (Exp κ))
    (run : Option CString → List (CString × κ)) (b : Option CString)
    (fuel : Nat) (made : List (Made κ)) (h : (run b).length < fuel) :
    dj_loop mk run fuel (some { binding := b, cursor := .ready }) made
      = (SQLITE_DONE, some { binding := b, cursor := .done },
          made ++ (run b).map (made_of mk)) := by
  cases fuel with
  | zero => simp at h
  | succ fuel =>
    cases hr : run b with
    | nil => simp [dj_loop, sqlite3_step, hr, Step.rc]
    | cons r rest =>
      obtain ⟨djs, cost⟩ := r
      rw [hr] at h
      simp only [List.length_cons, Nat.add_lt_add_iff_right] at h
      simp only [dj_loop, sqlite3_step, hr]
      rw [dj_loop_rows mk run b rest fuel _ h]
      simp [made_of]

theorem dj_loop_done {κ : Type} (mk : CString → κ → Option (Exp κ))
    (run : Option CString → List (CString × κ)) (b : Option CString)
    (fuel : Nat) (made : List (Made κ)) (h : (run b).length < fuel) :
    dj_loop mk run fuel (some { binding := b, cursor := .done }) made
      = (SQLITE_DONE, some { binding := b, cursor := .done },
          made ++ (run b).map (made_of mk)) := by
  cases fuel with
  | zero => simp at h
  | succ fuel =>
    cases hr : run b with
    | nil => simp [dj_loop, sqlite3_step, hr, Step.rc]
    | cons r rest =>
      obtain ⟨djs, cost⟩ := r
      rw [hr] at h
      simp only [List.length_cons, Nat.add_lt_add_iff_right] at h
      simp only [dj_loop, sqlite3_step, hr]
      rw [dj_loop_rows mk run b rest fuel _ h]
      simp [made_of]

/-- Whatever the state of the disjunct statement, the fuel handed to the loop
by `lg_cluster_get_disjuncts` is never used up: the loop is left through
`break`, with a result code other than `SQLITE_ROW`. -/
theorem dj_loop_leaves_by_break {κ : Type} (mk : CString → κ → Option (Exp κ))
    (run : Option CString → List (CString × κ)) (s : Option (Stmt (CString × κ)))
    (made : List (Made κ)) :
    (dj_loop mk run (pending run s + 1) s made).1 ≠ SQLITE_ROW := by
  cases s with
  | none => simp [dj_loop, sqlite3_step, Step.rc, SQLITE_MISUSE, SQLITE_ROW]
  | some st =>
    obtain ⟨b, cur⟩ := st
    cases cur with
    | ready =>
      have h := dj_loop_ready mk run b ((run b).length + 1) made (Nat.lt_succ_self _)
      simp only [pending, h]
      decide
    | done =>
      have h := dj_loop_done mk run b ((run b).length + 1) made (Nat.lt_succ_self _)
      simp only [pending, h]
      decide
    | rows rest =>
      have h := dj_loop_rows mk run b rest (rest.length + 1) made (Nat.lt_succ_self _)
      simp only [pending, h]
      decide

theorem dj_loop_null {κ : Type} (mk : CString → κ → Option (Exp κ))
    (run : Option CString → List (CString × κ)) (fuel : Nat) (made : List (Made κ)) :
    dj_loop mk run (fuel + 1) none made = (SQLITE_MISUSE, none, made) := by
  simp [dj_loop, sqlite3_step, Step.rc]

theorem lookup_unused {κ : Type} (mk : CString → κ → Option (Exp κ)) (c : Cluster κ)
    (wrd : CString) (hclu : c.clu_query = none ∨ stmt_fresh c.clu_query)
    (hdj : c.dj_query = none ∨ stmt_fresh c.dj_query) :
    lg_cluster_get_disjuncts_using mk c wrd = lookup_closed_form mk c wrd := by
  obtain ⟨dbname, dbconn, clu, dj, rc⟩ := c
  simp only [stmt_fresh] at hclu hdj
  rcases hclu with hclu | hclu
  · subst hclu
    simp [lg_cluster_get_disjuncts_using, lookup_closed_form, sqlite3_bind_text,
      sqlite3_step, sqlite3_reset, sqlite3_clear_bindings, Step.rc]
  · subst hclu
    cases hr : clu_run (⟨dbname, dbconn, some ⟨none, .ready⟩, dj, rc⟩ : Cluster κ) (some wrd) with
    | nil =>
      simp [lg_cluster_get_disjuncts_using, lookup_closed_form, sqlite3_bind_text,
        sqlite3_step, sqlite3_reset, sqlite3_clear_bindings, Step.rc, hr]
    | cons cl rest =>
      rcases hdj with hdj | hdj
      · subst hdj
        simp [lg_cluster_get_disjuncts_using, lookup_closed_form, sqlite3_bind_text,
          sqlite3_step, sqlite3_reset, sqlite3_clear_bindings, hr, pending, dj_loop_null]
      · subst hdj
        simp [lg_cluster_get_disjuncts_using, lookup_closed_form, sqlite3_bind_text,
          sqlite3_step, sqlite3_reset, sqlite3_clear_bindings, hr, pending, dj_loop_ready]

theorem new_unused {κ : Type} (env : Env κ) :
    ((lg_cluster_new env).clu_query = none ∨ stmt_fresh (lg_cluster_new env).clu_query) ∧
    ((lg_cluster_new env).dj_query = none ∨ stmt_fresh (lg_cluster_new env).dj_query) := by
  cases env with
  | unavailable rc => exact ⟨Or.inl rfl, Or.inl rfl⟩
  | available dbname db =>
    obtain ⟨ms, ds⟩ := db
    cases ms <;> cases ds <;>
      simp [stmt_fresh, lg_cluster_new, sqlite3_prepare_clu, sqlite3_prepare_dj]

theorem new_prepared_fresh {κ : Type} (dbname : CString) (ms : List MemberRow)
    (ds : List (DisjunctRow κ)) :
    cluster_fresh (lg_cluster_new (.available dbname ⟨some ms, some ds⟩)) :=
  ⟨rfl, rfl⟩

theorem lookup_new {κ : Type} (mk : CString → κ → Option (Exp κ)) (env : Env κ)
    (wrd : CString) :
    lg_cluster_get_disjuncts_using mk (lg_cluster_new env) wrd
      = lookup_closed_form mk (lg_cluster_new env) wrd :=
  lookup_unused mk _ wrd (new_unused env).1 (new_unused env).2

theorem lookup_fresh {κ : Type} (mk : CString → κ → Option (Exp κ)) (c : Cluster κ)
    (wrd : CString) (h : cluster_fresh c) :
    (lg_cluster_get_disjuncts_using mk c wrd).outcome = .returned ∧
    (lg_cluster_get_disjuncts_using mk c wrd).c = c := by
  rw [lookup_unused mk c wrd (Or.inr h.1) (Or.inr h.2)]
  obtain ⟨hclu, hdj⟩ := h
  simp only [stmt_fresh] at hclu hdj
  unfold lookup_closed_form
  rw [hclu, hdj]
  simp only []
  split <;> exact ⟨rfl, rfl⟩

theorem after_lookups_fresh {κ : Type} (mk : CString → κ → Option (Exp κ))
    (c : Cluster κ) (h : cluster_fresh c) (ws : List CString) :
    after_lookups mk c ws = some c := by
  induction ws with
  | nil => rfl
  | cons w ws ih =>
    unfold after_lookups
    rw [(lookup_fresh mk c w h).1, (lookup_fresh mk c w h).2]
    exact ih

theorem expand_x_loop_fresh {κ : Type} (clu : Cluster κ) (h : cluster_fresh clu)
    (xs : List X_node) :
    ∀ d : List (Disjunct κ), expand_x_loop clu xs d = some (d, clu) := by
  induction xs with
  | nil => intro d; rfl
  | cons x xs ih =>
    intro d
    have hb : build_expansion_disjuncts clu x = some ([], clu) := by
      unfold build_expansion_disjuncts lg_cluster_get_disjuncts
      simp only [(lookup_fresh make_exp clu x.string h).1,
        (lookup_fresh make_exp clu x.string h).2, lookup_djl]
    unfold expand_x_loop
    rw [hb]
    exact ih d

theorem expand_w_loop_fresh {κ : Type} (clu : Cluster κ) (h : cluster_fresh clu)
    (n : Nat) :
    ∀ (w : Nat) (sent : Sentence κ), expand_w_loop n w clu sent = some (sent, clu) := by
  induction n with
  | zero => intro w sent; rfl
  | succ n ih =>
    intro w sent
    unfold expand_w_loop
    cases hw : sent.word[w]? with
    | none => simp only []; exact ih _ _
    | some wd =>
      simp only [expand_x_loop_fresh clu h]
      rw [ih]
      have : ({ wd with d := wd.d } : Word κ) = wd := rfl
      rw [this, set_same _ _ _ hw]

/-- On a store whose two statements are prepared the pass returns the
sentence as it was. -/
theorem expand_prepared {κ : Type} (dbname : CString) (ms : List MemberRow)
    (ds : List (DisjunctRow κ)) (sent : Sentence κ) :
    lg_expand_disjunct_list (.available dbname ⟨some ms, some ds⟩) sent = some sent := by
  unfold lg_expand_disjunct_list
  simp only [expand_w_loop_fresh _ (new_prepared_fresh dbname ms ds), Option.map_some']

/-- A lookup on a cluster object without cluster-membership statement finds
no row and dies in `sqlite3_clear_bindings(c->clu_query)`. -/
theorem lookup_null_clu_query {κ : Type} (mk : CString → κ → Option (Exp κ))
    (c : Cluster κ) (wrd : CString) (h : c.clu_query = none) :
    (lg_cluster_get_disjuncts_using mk c wrd).cluname = none ∧
    (lg_cluster_get_disjuncts_using mk c wrd).made = [] ∧
    (lg_cluster_get_disjuncts_using mk c wrd).outcome = .segv := by
  obtain ⟨dbname, dbconn, clu, dj, rc⟩ := c
  simp only at h
  subst h
  simp [lg_cluster_get_disjuncts_using, sqlite3_bind_text, sqlite3_step, sqlite3_reset,
    sqlite3_clear_bindings]

theorem head_filter_map {α β : Type} (p : α → Bool) (f : α → β) (l : List α) :
    ((l.filter p).map f).head? = (l.find? p).map f := by
  induction l with
  | nil => rfl
  | cons a l ih =>
    by_cases h : p a = true
    · simp [List.filter, List.find?, h]
    · simp only [Bool.not_eq_true] at h
      simp [List.filter, List.find?, h, ih]

theorem new_cluname {κ : Type} (mk : CString → κ → Option (Exp κ)) (dbname : CString)
    (db : Database κ) (wrd : CString) :
    (lg_cluster_get_disjuncts_using mk (lg_cluster_new (.available dbname db)) wrd).cluname
      = (select_cluster_name db (some wrd)).head? := by
  rw [lookup_new]
  obtain ⟨ms, ds⟩ := db
  cases ms with
  | none => rfl
  | some ms =>
    have hrun : clu_run (lg_cluster_new (Env.available dbname ⟨some ms, ds⟩)) (some wrd)
        = select_cluster_name ⟨some ms, ds⟩ (some wrd) := rfl
    unfold lookup_closed_form
    rw [hrun]
    cases ds <;> cases select_cluster_name _ (some wrd) <;> rfl

theorem new_made {κ : Type} (mk : CString → κ → Option (Exp κ)) (dbname : CString)
    (db : Database κ) (wrd : CString) :
    (lg_cluster_get_disjuncts_using mk (lg_cluster_new (.available dbname db)) wrd).made
      = match (select_cluster_name db (some wrd)).head? with
        | none => []
        | some cl => (select_disjunct_cost db (some cl)).map (made_of mk) := by
  rw [lookup_new]
  obtain ⟨ms, ds⟩ := db
  cases ms with
  | none => rfl
  | some ms =>
    have hrun : clu_run (lg_cluster_new (Env.available dbname ⟨some ms, ds⟩)) (some wrd)
        = select_cluster_name ⟨some ms, ds⟩ (some wrd) := rfl
    unfold lookup_closed_form
    rw [hrun]
    cases ds <;> cases select_cluster_name _ (some wrd) <;> rfl

theorem new_rc {κ : Type} (mk : CString → κ → Option (Exp κ)) (dbname : CString)
    (db : Database κ) (wrd : CString) :
    (lg_cluster_get_disjuncts_using mk (lg_cluster_new (.available dbname db)) wrd).rc
      ≠ SQLITE_ROW := by
  rw [lookup_new]
  obtain ⟨ms, ds⟩ := db
  cases ms with
  | none => exact (by decide : SQLITE_MISUSE ≠ SQLITE_ROW)
  | some ms =>
    unfold lookup_closed_form
    cases ds <;>
      cases clu_run (lg_cluster_new (Env.available dbname ⟨some ms, _⟩)) (some wrd) <;>
      first
        | exact (by decide : SQLITE_MISUSE ≠ SQLITE_ROW)
        | exact (by decide : SQLITE_DONE ≠ SQLITE_ROW)

/-- On a store whose two statements are prepared, a word whose candidate
strings match no `ClusterMembers` row keeps its disjunct list: each lookup
takes the `noclust` path and returns, and the pass returns the sentence
unchanged. -/
theorem no_cluster_unchanged_prepared {κ : Type} (dbname : CString)
    (ms : List MemberRow) (ds : List (DisjunctRow κ)) (sent : Sentence κ)
    (w : Nat) (wd : Word κ) (hw : sent.word[w]? = some wd)
    (hno : ∀ x ∈ wd.x, ∀ r ∈ ms, r.inflected_word ≠ x.string) :
    (∀ x ∈ wd.x,
      (lg_cluster_get_disjuncts
        (lg_cluster_new (.available dbname ⟨some ms, some ds⟩)) x.string).cluname = none ∧
      (lg_cluster_get_disjuncts
        (lg_cluster_new (.available dbname ⟨some ms, some ds⟩)) x.string).made = [] ∧
      (lg_cluster_get_disjuncts
        (lg_cluster_new (.available dbname ⟨some ms, some ds⟩)) x.string).outcome
          = .returned) ∧
    ∃ sent1, lg_expand_disjunct_list (.available dbname ⟨some ms, some ds⟩) sent
        = some sent1 ∧ sent1.word[w]? = some wd := by
  refine ⟨?_, sent, expand_prepared dbname ms ds sent, hw⟩
  intro x hx
  have hsel : select_cluster_name (⟨some ms, some ds⟩ : Database κ) (some x.string) = [] := by
    simp only [select_cluster_name, List.map_eq_nil_iff, List.filter_eq_nil_iff,
      decide_eq_true_eq]
    exact fun r hr => hno x hx r hr
  unfold lg_cluster_get_disjuncts
  refine ⟨?_, ?_, (lookup_fresh _ _ _ (new_prepared_fresh dbname ms ds)).1⟩
  · rw [new_cluname, hsel]; rfl
  · rw [new_made, hsel]; rfl

theorem strchr_zero_none (c : Char) (s : CString) (h : strchr s 0 c = none) : c ∉ s := by
  induction s with
  | nil => simp
  | cons x xs ih =>
    simp only [strchr] at h
    by_cases hx : x = c
    · simp [hx] at h
    · simp only [hx, if_false, Option.map_eq_none'] at h
      simp only [List.mem_cons, not_or]
      exact ⟨fun e => hx e.symm, ih h⟩

theorem strchr_zero_some (c : Char) (s : CString) :
    ∀ k, strchr s 0 c = some k →
      ∃ mid rest, s = mid ++ c :: rest ∧ c ∉ mid ∧ mid.length = k := by
  induction s with
  | nil => intro k h; simp [strchr] at h
  | cons x xs ih =>
    intro k h
    simp only [strchr] at h
    by_cases hx : x = c
    · simp only [hx, if_true, Option.some.injEq] at h
      exact ⟨[], xs, by simp [hx], by simp, by simp [← h]⟩
    · simp only [hx, if_false, Option.map_eq_some'] at h
      obtain ⟨j, hj, hk⟩ := h
      obtain ⟨mid, rest, hs, hm, hl⟩ := ih j hj
      refine ⟨x :: mid, rest, by simp [hs], ?_, by simp [hl, hk]⟩
      simp only [List.mem_cons, not_or]
      exact ⟨fun e => hx e.symm, hm⟩

theorem strchr_append (c : Char) (pre suf : CString) :
    strchr (pre ++ suf) pre.length c = (strchr suf 0 c).map (fun k => k + pre.length) := by
  induction pre with
  | nil => simp
  | cons x pre ih =>
    show (strchr (pre ++ suf) pre.length c).map (fun k => k + 1) = _
    rw [ih, Option.map_map]
    cases strchr suf 0 c with
    | none => rfl
    | some k => simp [Nat.add_assoc]

theorem set_append_mid {α : Type} (l1 l2 : List α) (a b : α) :
    (l1 ++ a :: l2).set l1.length b = l1 ++ b :: l2 := by
  induction l1 with
  | nil => rfl
  | cons x l1 ih => simp [ih]

theorem map_dot_for_v_of_not_mem (s : CString) (h : 'v' ∉ s) : s.map dot_for_v = s := by
  induction s with
  | nil => rfl
  | cons x xs ih =>
    simp only [List.mem_cons, not_or] at h
    have hx : x ≠ 'v' := fun e => h.1 e.symm
    simp [dot_for_v, hx, ih h.2]

theorem version_loop_spec (fuel : Nat) :
    ∀ (pre suf : CString), suf.length < fuel →
      version_loop fuel (pre ++ suf) (strchr (pre ++ suf) pre.length 'v')
        = pre ++ suf.map dot_for_v := by
  induction fuel with
  | zero => intro pre suf h; simp at h
  | succ fuel ih =>
    intro pre suf h
    rw [strchr_append]
    cases hs : strchr suf 0 'v' with
    | none =>
      simp only [Option.map_none', version_loop]
      rw [map_dot_for_v_of_not_mem suf (strchr_zero_none _ _ hs)]
    | some k =>
      obtain ⟨mid, rest, hsuf, hmid, hlen⟩ := strchr_zero_some _ _ k hs
      subst hsuf
      simp only [Option.map_some', version_loop]
      have hset : (pre ++ (mid ++ 'v' :: rest)).set (k + pre.length) '.'
          = (pre ++ mid ++ ['.']) ++ rest := by
        have := set_append_mid (pre ++ mid) rest 'v' '.'
        simp only [List.length_append, List.append_assoc] at this
        rw [← hlen, Nat.add_comm mid.length pre.length, this]
        simp
      have hidx : k + pre.length + 1 = (pre ++ mid ++ ['.']).length := by
        simp [hlen]; omega
      rw [hset, hidx]
      have hrest : rest.length < fuel := by
        simp only [List.length_append, List.length_cons] at h
        omega
      rw [ih _ _ hrest]
      simp [map_dot_for_v_of_not_mem mid hmid, dot_for_v]

theorem version_loop_map (ver : CString) :
    version_loop (ver.length + 1) ver (strchr ver 0 'v') = ver.map dot_for_v := by
  have := version_loop_spec (ver.length + 1) [] ver (Nat.lt_succ_self _)
  simpa using this

theorem not_mem_map_dot_for_v (s : CString) : 'v' ∉ s.map dot_for_v := by
  intro h
  obtain ⟨a, _, ha⟩ := List.mem_map.mp h
  unfold dot_for_v at ha
  split at ha
  · exact absurd ha (by decide)
  · rename_i hne; exact hne ha


/-! ## The claims -/

/-- C1, as the code has it: for every store whose two queries are prepared
(the database opens and has both tables), every sentence and every word
position `w` with disjunct list `L`, `lg_expand_disjunct_list` returns, and
afterwards the word's disjunct list has length `|L|`, whatever the number of
validly decodable rows, and its first `|L|` elements are exactly `L` in the
original order. -/
theorem C1_expand_keeps_native_list {κ : Type} (dbname : CString)
    (ms : List MemberRow) (ds : List (DisjunctRow κ)) (sent : Sentence κ)
    (w : Nat) (wd : Word κ) (h : sent.word[w]? = some wd) :
    ∃ sent1 wd1,
      lg_expand_disjunct_list (.available dbname ⟨some ms, some ds⟩) sent = some sent1 ∧
      sent1.word[w]? = some wd1 ∧
      wd1.d.length = wd.d.length ∧ wd1.d.take wd.d.length = wd.d :=
  ⟨sent, wd, expand_prepared dbname ms ds sent, h, rfl, List.take_length _⟩

theorem C1_expand_keeps_native_list_witness :
    walk_sentence.word[0]? = some walk_word ∧
    ∃ sent1 wd1,
      lg_expand_disjunct_list run_env walk_sentence = some sent1 ∧
      sent1.word[0]? = some wd1 ∧
      wd1.d.length = walk_word.d.length ∧ wd1.d.take walk_word.d.length = walk_word.d :=
  ⟨rfl, C1_expand_keeps_native_list "sql/clusters.db".toList
    [⟨"run".toList, "C1".toList⟩]
    [⟨"C1".toList, "S+".toList, 0⟩, ⟨"C1".toList, "S+ & O-".toList, 1⟩]
    walk_sentence 0 walk_word rfl⟩

/-- C1 fails as stated: in the end-to-end store, whose two queries are
prepared, the word "run" reaches two validly decodable rows (`N = 2`) and
has the empty list `L`, yet after the expansion its list has length 0, not
`|L| + N = 2`. -/
theorem C1_counterexample :
    run_sentence.word[0]? = some run_word ∧
    valid_rows run_env run_word = 2 ∧
    ((lg_expand_disjunct_list run_env run_sentence).bind (fun s => s.word[0]?)).map
      (fun wd => wd.d.length) = some 0 ∧
    ¬ (((lg_expand_disjunct_list run_env run_sentence).bind (fun s => s.word[0]?)).map
      (fun wd => wd.d.length) = some (run_word.d.length + valid_rows run_env run_word)) := by
  decide

/-- C3 at its failing input: when the database cannot be opened,
`lg_cluster_new` returns a cluster object without connection and without
prepared statements; every lookup on it finds no row and visits no disjunct
row, but dies in `sqlite3_clear_bindings(c->clu_query)` instead of
returning, and `lg_expand_disjunct_list` on a sentence with a candidate
string does not return. -/
theorem C3_unavailable_store_dies (rc : Int) (wrd : CString) :
    (lg_cluster_new (Env.unavailable rc : Env ℚ)).dbconn = none ∧
    (lg_cluster_new (Env.unavailable rc : Env ℚ)).clu_query = none ∧
    (lg_cluster_new (Env.unavailable rc : Env ℚ)).dj_query = none ∧
    (lg_cluster_get_disjuncts (lg_cluster_new (Env.unavailable rc : Env ℚ)) wrd).cluname
      = none ∧
    (lg_cluster_get_disjuncts (lg_cluster_new (Env.unavailable rc : Env ℚ)) wrd).made
      = [] ∧
    (lg_cluster_get_disjuncts (lg_cluster_new (Env.unavailable rc : Env ℚ)) wrd).outcome
      = Outcome.segv ∧
    lg_expand_disjunct_list (Env.unavailable rc) run_sentence = none := by
  have h := lookup_null_clu_query make_exp (lg_cluster_new (Env.unavailable rc : Env ℚ))
    wrd rfl
  refine ⟨rfl, rfl, rfl, h.1, h.2.1, h.2.2, ?_⟩
  have hr := (lookup_null_clu_query make_exp
    (lg_cluster_new (Env.unavailable rc : Env ℚ)) "run".toList rfl).2.2
  simp only [lg_expand_disjunct_list, run_sentence, run_word, expand_w_loop,
    List.getElem?_cons_zero, expand_x_loop, build_expansion_disjuncts,
    lg_cluster_get_disjuncts, hr, Option.map_none']

/-- C4 fails as stated: in the end-to-end example the pass returns, and the
word "run" does not end up with exactly two disjuncts, whatever their
connectors and costs (so in particular not with an `S+` one at cost 0 and an
`S+ O-` one at cost 1): its disjunct list is still empty. -/
theorem C4_counterexample :
    run_sentence.word[0]? = some run_word ∧ run_word.d = [] ∧
    run_word.x = [⟨"run".toList⟩] ∧
    ¬ (∃ d1 d2 : Disjunct ℚ,
        ((lg_expand_disjunct_list run_env run_sentence).bind
          (fun s => s.word[0]?)).map (fun wd => wd.d) = some [d1, d2]) := by
  refine ⟨rfl, rfl, rfl, ?_⟩
  rintro ⟨d1, d2, h⟩
  have he : lg_expand_disjunct_list run_env run_sentence = some run_sentence :=
    expand_prepared _ _ _ _
  rw [he] at h
  have h0 : (some [] : Option (List (Disjunct ℚ))) = some [d1, d2] := h
  exact List.noConfusion (Option.some.inj h0)

/-- C4, as the code has it: in the end-to-end example the lookup for "run"
finds cluster `C1`, calls `make_exp` on ("S+", 0) and then on
("S+ & O-", 1), gets no expression from either call and returns the empty
list; `lg_expand_disjunct_list` returns, the word "run" has no disjunct
afterwards and the sentence is unchanged. -/
theorem C4_end_to_end_no_disjunct :
    (lg_cluster_get_disjuncts (lg_cluster_new run_env) "run".toList).cluname
      = some "C1".toList ∧
    visited (lg_cluster_get_disjuncts (lg_cluster_new run_env) "run".toList)
      = [("S+".toList, 0), ("S+ & O-".toList, 1)] ∧
    ((lg_cluster_get_disjuncts (lg_cluster_new run_env) "run".toList).made.map
      (fun m => m.exp.isSome)) = [false, false] ∧
    (lg_cluster_get_disjuncts (lg_cluster_new run_env) "run".toList).djl = [] ∧
    (lg_cluster_get_disjuncts (lg_cluster_new run_env) "run".toList).outcome
      = Outcome.returned ∧
    ((lg_expand_disjunct_list run_env run_sentence).bind (fun s => s.word[0]?)).map
      (fun wd => wd.d) = some [] ∧
    lg_expand_disjunct_list run_env run_sentence = some run_sentence := by
  decide

/-- C5, as the code has it: for every store with a `ClusterMembers` table and
every word, the cluster used by the lookup is the `cluster_name` of the
first row for that word in the order the query returns the rows (the scan
order of the table), and there is none exactly when no row matches.  The
choice is a function of the store and the word, but it follows the physical
order of the rows. -/
theorem C5_first_row_wins {κ : Type} (mk : CString → κ → Option (Exp κ))
    (dbname : CString) (ms : List MemberRow) (ds : Option (List (DisjunctRow κ)))
    (wrd : CString) :
    (lg_cluster_get_disjuncts_using mk
        (lg_cluster_new (.available dbname ⟨some ms, ds⟩)) wrd).cluname
      = (ms.find? (fun r => decide (r.inflected_word = wrd))).map
          (fun r => r.cluster_name) := by
  rw [lookup_new, ← head_filter_map]
  have hrun : clu_run (lg_cluster_new (Env.available dbname ⟨some ms, ds⟩)) (some wrd)
      = (ms.filter (fun r => decide (r.inflected_word = wrd))).map
          (fun r => r.cluster_name) := rfl
  unfold lookup_closed_form
  rw [hrun]
  cases ds <;>
    cases (ms.filter (fun r => decide (r.inflected_word = wrd))).map
      (fun r => r.cluster_name) <;> rfl

/-- C5 fails as stated: with the rows ("run", "C2"), ("run", "C1") stored in
this order the lookup for "run" uses `C2`, although `C1` is the
lexicographically smaller matching name; with the same rows stored in the
other order it uses `C1`. -/
theorem C5_counterexample :
    (lg_cluster_get_disjuncts
        (lg_cluster_new (.available "sql/clusters.db".toList two_cluster_db))
        "run".toList).cluname = some "C2".toList ∧
    "C1".toList < "C2".toList ∧
    (lg_cluster_get_disjuncts
        (lg_cluster_new (.available "sql/clusters.db".toList two_cluster_db_swapped))
        "run".toList).cluname = some "C1".toList ∧
    List.Perm (two_cluster_db.ClusterMembers.getD [])
      (two_cluster_db_swapped.ClusterMembers.getD []) := by
  refine ⟨by decide, by decide, by decide, ?_⟩
  exact List.Perm.swap _ _ _

/-- C6, as the code has it: for every store with a `ClusterDisjuncts` table,
the (disjunct string, cost) rows a lookup visits are the rows of the matched
cluster in the order the query returns them, which is the scan order of the
table; no ordering by cost or by disjunct string is applied. -/
theorem C6_rows_in_scan_order {κ : Type} (mk : CString → κ → Option (Exp κ))
    (dbname : CString) (ms : Option (List MemberRow)) (ds : List (DisjunctRow κ))
    (wrd : CString) :
    visited (lg_cluster_get_disjuncts_using mk
        (lg_cluster_new (.available dbname ⟨ms, some ds⟩)) wrd)
      = match (lg_cluster_get_disjuncts_using mk
          (lg_cluster_new (.available dbname ⟨ms, some ds⟩)) wrd).cluname with
        | none => []
        | some cl =>
          (ds.filter (fun r => decide (r.cluster_name = cl))).map
            (fun r => (r.disjunct, r.cost)) := by
  rw [lookup_new]
  cases ms with
  | none => rfl
  | some ms =>
    have hdj : ∀ cl, dj_run (lg_cluster_new (Env.available dbname ⟨some ms, some ds⟩))
        (some cl) = (ds.filter (fun r => decide (r.cluster_name = cl))).map
          (fun r => (r.disjunct, r.cost)) := fun _ => rfl
    unfold lookup_closed_form
    cases hrun : clu_run (lg_cluster_new (Env.available dbname ⟨some ms, some ds⟩))
        (some wrd) with
    | nil => rfl
    | cons cl rest =>
      simp only [lg_cluster_new, sqlite3_prepare_clu, sqlite3_prepare_dj, visited,
        List.map_map]
      rw [← hdj cl]
      simp only [lg_cluster_new, sqlite3_prepare_clu, sqlite3_prepare_dj]
      conv_rhs => rw [← List.map_id (dj_run _ _)]
      rfl

/-- C6 fails as stated: with ("C1", "S+ & O-", 1) stored before
("C1", "S+", 0) the lookup visits the row of cost 1 first, so the visited
sequence is not sorted ascending by cost. -/
theorem C6_counterexample :
    visited (lg_cluster_get_disjuncts
        (lg_cluster_new (.available "sql/clusters.db".toList unsorted_db)) "run".toList)
      = [("S+ & O-".toList, 1), ("S+".toList, 0)] ∧
    ¬ List.Sorted visit_order
        (visited (lg_cluster_get_disjuncts
          (lg_cluster_new (.available "sql/clusters.db".toList unsorted_db))
          "run".toList)) := by
  have hv : visited (lg_cluster_get_disjuncts
        (lg_cluster_new (.available "sql/clusters.db".toList unsorted_db)) "run".toList)
      = [("S+ & O-".toList, 1), ("S+".toList, 0)] := by decide
  refine ⟨hv, ?_⟩
  rw [hv]
  simp [List.Sorted, visit_order]

/-- C7: for every expression builder `mk`, every store and every word for
which a cluster `cl` is found, the builder is invoked exactly once on each
row the disjunct query returns for `cl`, in the order the rows are returned
and whatever it returned for earlier rows; the loop is left through `break`,
with a step result other than `SQLITE_ROW`. -/
theorem C7_builder_called_on_every_row {κ : Type} (mk : CString → κ → Option (Exp κ))
    (dbname : CString) (db : Database κ) (wrd cl : CString)
    (h : (lg_cluster_get_disjuncts_using mk
            (lg_cluster_new (.available dbname db)) wrd).cluname = some cl) :
    (lg_cluster_get_disjuncts_using mk (lg_cluster_new (.available dbname db)) wrd).made
      = (select_disjunct_cost db (some cl)).map
          (fun row => { djstr := row.1, cost := row.2, exp := mk row.1 row.2 }) ∧
    (lg_cluster_get_disjuncts_using mk (lg_cluster_new (.available dbname db)) wrd).rc
      ≠ SQLITE_ROW := by
  rw [new_cluname] at h
  rw [new_made, h]
  exact ⟨rfl, new_rc mk dbname db wrd⟩

theorem C7_builder_called_on_every_row_witness :
    (lg_cluster_get_disjuncts_using make_exp (lg_cluster_new run_env) "run".toList).cluname
      = some "C1".toList ∧
    (lg_cluster_get_disjuncts_using make_exp (lg_cluster_new run_env) "run".toList).made
      = (select_disjunct_cost run_db (some "C1".toList)).map
          (fun row => { djstr := row.1, cost := row.2, exp := make_exp row.1 row.2 }) ∧
    (lg_cluster_get_disjuncts_using make_exp (lg_cluster_new run_env) "run".toList).rc
      ≠ SQLITE_ROW :=
  ⟨rfl, C7_builder_called_on_every_row make_exp "sql/clusters.db".toList run_db
    "run".toList "C1".toList rfl⟩

/-- C8: `make_exp` returns no expression for every input,
`lg_cluster_get_disjuncts` never produces a disjunct, and on every store
whose two queries are prepared `lg_expand_disjunct_list` returns the
sentence as it was (same length, same candidate lists, same disjunct
lists).  On a store that is not available, or whose file lacks the
`ClusterDisjuncts` table, the pass is not a no-op: for the sentence "run" it
dies in `sqlite3_clear_bindings` and does not return. -/
theorem C8_noop_only_when_prepared {κ : Type} (dbname : CString)
    (ms : List MemberRow) (ds : List (DisjunctRow κ)) (sent : Sentence κ)
    (c : Cluster κ) (wrd : CString) (cost : κ) :
    (make_exp wrd cost : Option (Exp κ)) = none ∧
    (lg_cluster_get_disjuncts c wrd).djl = [] ∧
    lg_expand_disjunct_list (.available dbname ⟨some ms, some ds⟩) sent = some sent ∧
    lg_expand_disjunct_list missing_env run_sentence = none ∧
    lg_expand_disjunct_list (.available "sql/clusters.db".toList half_db) run_sentence
      = none :=
  ⟨rfl, lookup_djl _ _ _, expand_prepared dbname ms ds sent, by decide, by decide⟩

/-- C9: for a dictionary with no cached version whose
`<dictionary-version-number>` entry holds the non-empty connector string
`s`, `linkgrammar_get_dict_version` returns `s` without its first character
and with every `v` of the remainder replaced by `.`; the result contains no
`v`, has length `|s| - 1`, and is cached.  Whatever the dictionary, an
absent entry gives "[unknown]" and a cached version is returned unchanged,
the dictionary staying as it was in both cases. -/
theorem C9_dict_version {κ : Type} (dict : Dictionary κ) (dn : Dict_node κ)
    (rest : List (Dict_node κ)) (s : CString)
    (hv : dict.version = none)
    (hl : dict.lookup_list "<dictionary-version-number>".toList = dn :: rest)
    (hu : dn.exp.u_string = some s) (hs : s ≠ []) :
    (∃ dict1, linkgrammar_get_dict_version dict
        = some ((s.drop 1).map (fun ch => if ch = 'v' then '.' else ch), dict1) ∧
      dict1.version = some ((s.drop 1).map (fun ch => if ch = 'v' then '.' else ch))) ∧
    'v' ∉ (s.drop 1).map (fun ch => if ch = 'v' then '.' else ch) ∧
    ((s.drop 1).map (fun ch => if ch = 'v' then '.' else ch)).length = s.length - 1 ∧
    (∀ d : Dictionary κ, d.version = none →
      d.lookup_list "<dictionary-version-number>".toList = [] →
      linkgrammar_get_dict_version d = some ("[unknown]".toList, d)) ∧
    (∀ (d : Dictionary κ) (v : CString), d.version = some v →
      linkgrammar_get_dict_version d = some (v, d)) := by
  have hf : (fun ch : Char => if ch = 'v' then '.' else ch) = dot_for_v := rfl
  rw [hf]
  refine ⟨?_, not_mem_map_dot_for_v _, by simp, ?_, ?_⟩
  · cases s with
    | nil => exact absurd rfl hs
    | cons a tail =>
      simp only [linkgrammar_get_dict_version, hv, hl, hu, string_set_add,
        version_loop_map, List.drop_succ_cons, List.drop_zero]
      exact ⟨_, rfl, rfl⟩
  · intro d hdv hdl
    simp only [linkgrammar_get_dict_version, hdv, hdl]
  · intro d v hdv
    simp only [linkgrammar_get_dict_version, hdv]

theorem C9_dict_version_witness :
    versioned_dict.version = none ∧
    "V4v6v6".toList ≠ [] ∧
    (linkgrammar_get_dict_version versioned_dict).map (fun r => r.1)
      = some "4.6.6".toList := by
  refine ⟨rfl, by decide, ?_⟩
  obtain ⟨⟨dict1, h1, _⟩, _⟩ := C9_dict_version versioned_dict
    { string := "<dictionary-version-number>".toList,
      exp := .connector "V4v6v6".toList .right false none } [] "V4v6v6".toList
    rfl rfl rfl (by decide)
  have h2 : ("V4v6v6".toList.drop 1).map (fun ch => if ch = 'v' then '.' else ch)
      = "4.6.6".toList := by decide
  rw [h1]
  exact congrArg some h2

/-- C10: if both prepared queries are fresh (prepared, reset, nothing bound)
before a call of `lg_cluster_get_disjuncts`, then the call returns and the
cluster object is what it was before, on every path: both queries fresh
again and the store unchanged.  Hence after any sequence `ws` of earlier
lookups the object is still the same and the lookup for a word gives what it
gives on the untouched object. -/
theorem C10_statements_restored {κ : Type} (mk : CString → κ → Option (Exp κ))
    (c : Cluster κ) (wrd : CString) (h : cluster_fresh c) :
    (lg_cluster_get_disjuncts_using mk c wrd).outcome = Outcome.returned ∧
    (lg_cluster_get_disjuncts_using mk c wrd).c = c ∧
    cluster_fresh (lg_cluster_get_disjuncts_using mk c wrd).c ∧
    (lg_cluster_get_disjuncts_using mk c wrd).c.dbconn = c.dbconn ∧
    ∀ ws : List CString,
      after_lookups mk c ws = some c ∧
      (after_lookups mk c ws).map (fun c1 => lg_cluster_get_disjuncts_using mk c1 wrd)
        = some (lg_cluster_get_disjuncts_using mk c wrd) := by
  have hc := lookup_fresh mk c wrd h
  refine ⟨hc.1, hc.2, by rw [hc.2]; exact h, by rw [hc.2], ?_⟩
  intro ws
  have := after_lookups_fresh mk c h ws
  exact ⟨this, by rw [this]; rfl⟩

theorem C10_statements_restored_witness :
    cluster_fresh (lg_cluster_new run_env) ∧
    (lg_cluster_get_disjuncts_using make_exp (lg_cluster_new run_env) "run".toList).outcome
      = Outcome.returned ∧
    (lg_cluster_get_disjuncts_using make_exp (lg_cluster_new run_env) "run".toList).c
      = lg_cluster_new run_env :=
  ⟨⟨rfl, rfl⟩,
    (C10_statements_restored make_exp (lg_cluster_new run_env) "run".toList
      ⟨rfl, rfl⟩).1,
    (C10_statements_restored make_exp (lg_cluster_new run_env) "run".toList
      ⟨rfl, rfl⟩).2.1⟩

end LinkGrammar
